import Mathlib

/-!
Verification of the MultiSocksDownloader download engine (`downloader.py`)
against its natural-language specification.

The Python source is shallowly embedded: pure computations become Lean
functions over `Nat`/`Int` (Python integers are arbitrary precision, so no
wrap-around modelling is needed), stateful methods become explicit
state-passing functions, filesystem interactions are abstracted into an
oracle record, and the mutex-guarded 416 latch becomes a step function on a
latch state (the mutex serialises the critical section, so a sequence of
atomic latch events is a faithful model of the interleaving).
-/

namespace MultiSocksDownloader

/-- One download segment, mirroring the dict built by
`DownloadTask._init_parts` (`index`, `start`, `end`, `current`,
`completed`; the `progress` display field is omitted as it is never read
by the engine).  Python's `end` is a Lean keyword, hence `end_`. -/
structure SPart where
  index : Nat
  start : Nat
  end_ : Nat
  current : Nat
  completed : Bool
deriving Repr, DecidableEq

/-- The `for i in range(parts_count)` loop body of
`DownloadTask._init_parts`.  `fuel` counts the remaining loop iterations
(`parts_count - i`); the `start >= total_size: break` exit is the
`else []` branch. -/
def initPartsLoop (totalSize chunkSize partsCount : Nat) : Nat → Nat → List SPart
  | _, 0 => []
  | i, fuel + 1 =>
    let s := i * chunkSize
    let e0 := min (s + chunkSize - 1) (totalSize - 1)
    let e := if i = partsCount - 1 then totalSize - 1 else e0
    if s < totalSize then
      ⟨i, s, e, s, false⟩ :: initPartsLoop totalSize chunkSize partsCount (i + 1) fuel
    else []

/-- `DownloadTask._init_parts`: the Segment Plan.  Returns the produced
`self.parts` list; when `total_size <= 0` the source sets
`thread_count = 1` and `parts = []`. -/
def initParts (totalSize threadCount chunksPerPart : Nat) : List SPart :=
  if totalSize = 0 then []
  else
    let partsCount := threadCount * chunksPerPart
    let chunkSize := max (1024 * 1024) (totalSize / partsCount)
    initPartsLoop totalSize chunkSize partsCount 0 partsCount

/-- Adjacency relation of the Segment Plan: the next segment starts one
byte after the previous segment's inclusive end. -/
def partsAdjacent (a b : SPart) : Prop := b.start = a.end_ + 1

/-- Download mode of a task: multi-stream (segmented) or single-stream. -/
inductive DownloadMode where
  | singleStream : DownloadMode
  | multiStream : DownloadMode
deriving Repr, DecidableEq

/-- Mode selection of `DownloadTask.prepare` for a server whose
range-capability is known (`downloader.py` lines 647-668): when
`supports_range` holds, files with `total_size < 1024 * 1024` use a single
stream (`thread_count = 1`, `parts = []`), all larger files get a Segment
Plan; without range support the task is always single-stream. -/
def prepareMode (supportsRange : Bool) (totalSize : Nat) : DownloadMode :=
  if supportsRange then
    if totalSize < 1024 * 1024 then DownloadMode.singleStream
    else DownloadMode.multiStream
  else DownloadMode.singleStream

/-- `DownloadTask._adjust_chunk_size`: dynamic scaling of
`chunks_per_part`, `chunk_size` and `thread_count` by `total_size`.
Returns the adjusted `(chunks_per_part, chunk_size, thread_count)`;
when `total_size = 0` nothing is adjusted. -/
def adjust_chunk_size (totalSize chunksPerPart chunkSize threadCount : Nat) :
    Nat × Nat × Nat :=
  if 0 < totalSize then
    let cpp :=
      if 10 * 1024 * 1024 * 1024 < totalSize then 800
      else if 5 * 1024 * 1024 * 1024 < totalSize then 500
      else if 1 * 1024 * 1024 * 1024 < totalSize then 300
      else if 500 * 1024 * 1024 < totalSize then 200
      else if 100 * 1024 * 1024 < totalSize then 150
      else 10
    let cs :=
      if 1 * 1024 * 1024 * 1024 < totalSize then 131072
      else if 100 * 1024 * 1024 < totalSize then 65536
      else 32768
    let tc :=
      if totalSize < 10 * 1024 * 1024 then min threadCount 5
      else if totalSize < 100 * 1024 * 1024 then min threadCount 10
      else threadCount
    (cpp, cs, tc)
  else (chunksPerPart, chunkSize, threadCount)

/-- Python's true division `a / b`, which raises `ZeroDivisionError` when
`b = 0`; modelled as `Option` over `ℚ`. -/
def pythonTrueDiv (a b : ℚ) : Option ℚ :=
  if b = 0 then none else some (a / b)

/-- The percentage computation of `DownloadTask.get_progress`
(`downloader.py` lines 294-297): `0` when `total_size == 0`, otherwise
`downloaded_size / total_size * 100`. -/
def get_progress_percentage (totalSize downloadedSize : ℤ) : Option ℚ :=
  if totalSize = 0 then some 0
  else (pythonTrueDiv (downloadedSize : ℚ) (totalSize : ℚ)).map (fun q => q * 100)

/-- The slice of a `DownloadTask`'s state touched by the single-stream
latch in `DownloadTask.download_part` (`downloader.py` lines 1302-1343 and
1361-1402).  `temp_truncated` records that the critical section reopened
`temp_filepath` with mode `wb` (truncating it), and
`single_fetchers_spawned` counts the `download_single` threads it
spawned. -/
structure LatchState where
  switched_to_single_thread : Bool
  thread_count : Nat
  parts : List SPart
  downloaded_size : Nat
  temp_truncated : Bool
  single_fetchers_spawned : Nat
deriving Repr, DecidableEq

/-- One worker observing HTTP 416 and executing the body of
`with self.switching_lock:` in `DownloadTask.download_part`.  The mutex
serialises the critical sections, so concurrent observers are modelled as
a sequence of atomic applications of this function.  A loser (the flag is
already set) is a no-op. -/
def observe416 (s : LatchState) : LatchState :=
  if s.switched_to_single_thread then s
  else
    { switched_to_single_thread := true
      thread_count := 1
      parts := []
      downloaded_size := 0
      temp_truncated := true
      single_fetchers_spawned := s.single_fetchers_spawned + 1 }

/-- `n` successive (mutex-serialised) 416 observations. -/
def observe416_iter : Nat → LatchState → LatchState
  | 0, s => s
  | n + 1, s => observe416_iter n (observe416 s)

/-- `os.path.join(dir, name)`, modelled with the POSIX separator. -/
def joinPath (d f : String) : String := d ++ "/" ++ f

/-- The characters of `os.path.basename`: everything after the last
path separator. -/
def basenameList (p : List Char) : List Char :=
  (p.reverse.takeWhile (fun c => c ≠ '/')).reverse

/-- `os.path.basename` on strings. -/
def pathBasename (p : String) : String := String.mk (basenameList p.data)

/-- One SOCKS5 proxy record as stored on a task (`{'host': …, 'port': …}`). -/
structure ProxyRec where
  host : String
  port : Nat
deriving Repr, DecidableEq

/-- The checkpoint-relevant state of a `DownloadTask`.  `total_active_time`
is a Python float used only opaquely here (stored and copied, never
computed with), modelled as `ℚ`. -/
structure TaskState where
  url : String
  save_dir : String
  filename : String
  filepath : String
  temp_filepath : String
  progress_filepath : String
  total_size : Nat
  downloaded_size : Nat
  status : String
  parts : List SPart
  proxies : List ProxyRec
  thread_count : Nat
  switched_to_single_thread : Bool
  total_active_time : ℚ
deriving Repr, DecidableEq

/-- A parsed checkpoint JSON object.  Every field is optional because
`load_progress` probes each key with `in`; a field that is `none` models a
missing key. -/
structure ProgressData where
  url : Option String
  total_size : Option Nat
  downloaded_size : Option Nat
  parts : Option (List SPart)
  status : Option String
  save_dir : Option String
  filename : Option String
  proxies : Option (List ProxyRec)
  thread_count : Option Nat
  switched_to_single_thread : Option Bool
  total_active_time : Option ℚ
deriving Repr, DecidableEq

/-- `DownloadTask.save_progress`: the checkpoint record written to
`progress_filepath` (every key present). -/
def save_progress (t : TaskState) : ProgressData :=
  { url := some t.url
    total_size := some t.total_size
    downloaded_size := some t.downloaded_size
    parts := some t.parts
    status := some t.status
    save_dir := some t.save_dir
    filename := some t.filename
    proxies := some t.proxies
    thread_count := some t.thread_count
    switched_to_single_thread := some t.switched_to_single_thread
    total_active_time := some t.total_active_time }

/-- Filesystem facts `load_progress` consults, abstracted as an oracle:
which paths exist, the reported size of a path, and whether the
temp-file size repair write succeeds. -/
structure FSOracle where
  path_exists : String → Bool
  getsize : String → Nat
  repair_ok : Bool

/-- The field-update prefix of `DownloadTask.load_progress` (lines
411-488): runs after the required-field and URL checks have passed and
applies the checkpoint data to the task, in source order (url and
total_size; proxies, thread_count, single-stream flag and active time if
present; downloaded_size recomputed from segment positions and clamped to
total_size; status; filename reconciliation; save_dir reconciliation). -/
def load_apply (t : TaskState) (u : String) (ts ds : Nat) (st : String)
    (d : ProgressData) (fs : FSOracle) : TaskState :=
  let t1 := { t with url := u, total_size := ts }
  let t2 := match d.proxies with
    | some ps => { t1 with proxies := ps }
    | none => t1
  let t3 := match d.thread_count with
    | some tc => { t2 with thread_count := tc }
    | none => t2
  let t4 := match d.switched_to_single_thread with
    | some b => { t3 with switched_to_single_thread := b }
    | none => t3
  let t5 := { t4 with total_active_time := d.total_active_time.getD 0 }
  let t6 :=
    match d.parts with
    | some ps =>
      if ps.isEmpty then { t5 with downloaded_size := min ds t5.total_size }
      else
        let actual := ps.foldl
          (fun (acc : Nat) (p : SPart) =>
            if p.start < p.current then acc + (p.current - p.start) else acc) 0
        let actual := if t5.total_size < actual then t5.total_size else actual
        { t5 with downloaded_size := actual }
    | none => { t5 with downloaded_size := min ds t5.total_size }
  let t7 := { t6 with status := st }
  let t8 :=
    match d.filename with
    | some fn =>
      if fn ≠ t7.filename then
        let fp := joinPath t7.save_dir fn
        { t7 with filename := fn, filepath := fp,
                  temp_filepath := fp ++ ".downloading" }
      else t7
    | none => t7
  match d.save_dir with
  | some sd =>
    if sd ≠ t8.save_dir then
      let oldTemp := joinPath sd (pathBasename t8.temp_filepath)
      if fs.path_exists oldTemp && decide (sd ≠ t8.save_dir) then
        let fp := joinPath sd t8.filename
        { t8 with save_dir := sd, filepath := fp,
                  temp_filepath := fp ++ ".downloading",
                  progress_filepath := fp ++ ".progress" }
      else t8
    else t8
  | none => t8

/-- The status sanitisation of `load_progress` (lines 495-502): a
checkpointed `error` status degrades to `paused` so the user can retry,
and any unknown status is forced to `paused`. -/
def sanitize_status (t9 : TaskState) : TaskState :=
  let t10 := if t9.status = "error" then { t9 with status := "paused" } else t9
  if t10.status ≠ "initialized" ∧ t10.status ≠ "downloading" ∧ t10.status ≠ "paused"
  then { t10 with status := "paused" } else t10

/-- The validation suffix of `DownloadTask.load_progress` (lines 490-531):
reject completed checkpoints, degrade error to paused, sanitise unknown
statuses, install the segment list and re-check the temp file (repairing
a short sparse file when possible). -/
def load_finish (t9 : TaskState) (d : ProgressData) (fs : FSOracle) :
    TaskState × Bool :=
  if t9.status = "completed" then (t9, false)
  else
    let t11 := sanitize_status t9
    match d.parts with
    | some ps =>
      if ps.isEmpty then (t11, true)
      else
        let t12 := { t11 with parts := ps }
        if fs.path_exists t12.temp_filepath = false then (t12, false)
        else if 0 < t12.total_size ∧ fs.getsize t12.temp_filepath < t12.total_size then
          if fs.repair_ok then (t12, true) else (t12, false)
        else (t12, true)
    | none => (t11, true)

/-- `DownloadTask.load_progress`: returns the updated task state and the
boolean result.  A `none` checkpoint models an unreadable/unparsable
progress file (the `except` paths); a missing required field
(`url`, `total_size`, `downloaded_size`, `status`) or a URL mismatch
returns `False` before touching the state. -/
def load_progress (t : TaskState) (dataOpt : Option ProgressData) (fs : FSOracle) :
    TaskState × Bool :=
  if fs.path_exists t.progress_filepath = false then (t, false)
  else
    match dataOpt with
    | none => (t, false)
    | some d =>
      match d.url, d.total_size, d.downloaded_size, d.status with
      | some u, some ts, some ds, some st =>
        if u ≠ t.url then (t, false)
        else load_finish (load_apply t u ts ds st d fs) d fs
      | _, _, _, _ => (t, false)

/-- The double-quote character, written numerically so that string
scanning stays robust. -/
def dquoteChar : Char := Char.ofNat 34

/-- The apostrophe character. -/
def aposChar : Char := Char.ofNat 39

/-- Is `c` an ASCII hexadecimal digit? -/
def isHexDigitChar (c : Char) : Bool :=
  c.isDigit || (Char.ofNat 97 ≤ c && c ≤ Char.ofNat 102) ||
    (Char.ofNat 65 ≤ c && c ≤ Char.ofNat 70)

/-- Value of an ASCII hexadecimal digit. -/
def hexDigitVal (c : Char) : Nat :=
  if c.isDigit then c.toNat - 48
  else if Char.ofNat 97 ≤ c then c.toNat - 87
  else c.toNat - 55

/-- `urllib.parse.unquote`: percent-decoding.  Multi-byte UTF-8 sequences
are modelled bytewise (each decoded byte becomes one character), which
agrees with Python on ASCII data. -/
def percentDecode : List Char → List Char
  | [] => []
  | '%' :: a :: b :: rest =>
    if isHexDigitChar a && isHexDigitChar b then
      Char.ofNat (16 * hexDigitVal a + hexDigitVal b) :: percentDecode rest
    else '%' :: percentDecode (a :: b :: rest)
  | c :: rest => c :: percentDecode rest

/-- Python's `needle in hay` on strings: substring containment. -/
def containsSub (needle : List Char) : List Char → Bool
  | [] => needle.isEmpty
  | c :: rest => needle.isPrefixOf (c :: rest) || containsSub needle rest

/-- Python's `str.isalnum`: non-empty and all characters alphanumeric
(restricted to the ASCII classes of `Char.isAlphanum`). -/
def pyIsAlnum (s : List Char) : Bool := !s.isEmpty && s.all Char.isAlphanum

/-- The pattern of the regex `filename="`. -/
def quotedFilenamePat : List Char := ( "filename=" ).data ++ [dquoteChar]

/-- The pattern of the regex `filename*=UTF-8''`. -/
def rfc5987Pat : List Char :=
  ( "filename*=UTF-8" ).data ++ [aposChar, aposChar]

/-- `re.search(r'filename="([^"]+)"', s)`: leftmost occurrence of the
pattern followed by a non-empty capture closed by another quote. -/
def scanQuotedFilename : List Char → Option (List Char)
  | [] => none
  | c :: rest =>
    if quotedFilenamePat.isPrefixOf (c :: rest) then
      let after := (c :: rest).drop quotedFilenamePat.length
      let cap := after.takeWhile (fun ch => ch ≠ dquoteChar)
      if cap ≠ [] ∧ (after.drop cap.length).head? = some dquoteChar then some cap
      else scanQuotedFilename rest
    else scanQuotedFilename rest

/-- `re.search(r"filename\*=UTF-8''([^;,\s]+)", s)`: leftmost occurrence
of the pattern followed by a non-empty run of characters that are not
`;`, `,` or whitespace. -/
def scanRfc5987 : List Char → Option (List Char)
  | [] => none
  | c :: rest =>
    if rfc5987Pat.isPrefixOf (c :: rest) then
      let after := (c :: rest).drop rfc5987Pat.length
      let cap := after.takeWhile
        (fun ch => !(ch == ';' || ch == ',' || ch.isWhitespace))
      if cap ≠ [] then some cap else scanRfc5987 rest
    else scanRfc5987 rest

/-- A request URL after `urllib.parse.urlparse`/`parse_qs`: the network
location, the (still percent-encoded) path, and the query parameters
(first value of each key, as `parse_qs` lists are only ever read at
index 0). -/
structure ParsedUrl where
  netloc : List Char
  path : List Char
  query : List (String × String)

/-- The query keys probed in step 4 of the filename resolver. -/
def filenameParams : List String :=
  [ "filename" , "name" , "file" , "title" , "download" ]

/-- The HuggingFace query key probed in step 2. -/
def rcdKey : String := "response-content-disposition"

/-- The host substring identifying the HuggingFace CDN. -/
def hfcoHost : List Char := ( "hf.co" ).data

/-- The `for param in filename_params` loop: the first of the known query
keys that is present and whose value contains a dot. -/
def firstQueryMatch (q : List (String × String)) : Option String :=
  filenameParams.findSome? (fun param =>
    match q.lookup param with
    | some v => if v.data.contains '.' then some v else none
    | none => none)

/-- `DownloadTask.try_extract_filename_from_url` (`downloader.py` lines
152-207): percent-decode the path and take its basename; on HuggingFace
hosts try the `response-content-disposition` parameter first (quoted
`filename=`, then RFC 5987); then the basename if it has a dot and fewer
than 100 characters; then — only when the basename is longer than 30
characters or purely alphanumeric — the known query keys; finally the
basename unconditionally. -/
def try_extract_filename_from_url (u : ParsedUrl) : List Char :=
  let path := percentDecode u.path
  let base_filename := basenameList path
  let hfResult : Option (List Char) :=
    if containsSub hfcoHost u.netloc then
      match u.query.lookup rcdKey with
      | some disp =>
        match scanQuotedFilename disp.data with
        | some fn => some fn
        | none =>
          match scanRfc5987 disp.data with
          | some fn => some (percentDecode fn)
          | none => none
      | none => none
    else none
  match hfResult with
  | some fn => fn
  | none =>
    if base_filename.contains '.' ∧ base_filename.length < 100 then base_filename
    else if base_filename.length > 30 ∨ pyIsAlnum base_filename then
      match firstQueryMatch u.query with
      | some fn => fn.data
      | none => base_filename
    else base_filename

/-- A key of the manager's `task_ids` dict.  `add_task` inserts string
keys (`str(self.next_id)`) while `scan_unfinished_tasks` inserts the raw
integer `self.next_id`, so the dict is keyed by both types. -/
inductive DictKey where
  | str : String → DictKey
  | num : Nat → DictKey
deriving Repr, DecidableEq

/-- A `DownloadTask` object as the manager's registry sees it: its
identity (`token`, the value of `next_id` at creation, unique because
`next_id` only grows) and its URL. -/
structure TaskRef where
  token : Nat
  url : String
deriving Repr, DecidableEq

/-- Python dict lookup on an insertion-ordered association list. -/
def assocLookup {κ α : Type} [DecidableEq κ] : List (κ × α) → κ → Option α
  | [], _ => none
  | kv :: rest, k => if kv.1 = k then some kv.2 else assocLookup rest k

/-- Python dict assignment `d[k] = v` on an insertion-ordered association
list: replace in place if the key exists, else append. -/
def dictInsert {κ α : Type} [DecidableEq κ] (l : List (κ × α)) (k : κ) (v : α) :
    List (κ × α) :=
  if (assocLookup l k).isSome then
    l.map (fun kv => if kv.1 = k then (k, v) else kv)
  else l ++ [(k, v)]

/-- The registry state of `DownloadManager`: `tasks` (URL → task),
`task_ids` (id → task) and the id counter (initially 1). -/
structure ManagerState where
  tasks : List (String × TaskRef)
  task_ids : List (DictKey × TaskRef)
  next_id : Nat
deriving Repr, DecidableEq

/-- The registry effect of `DownloadManager.add_task` (lines 2248-2254):
unconditionally `self.tasks[url] = task`, then file the new task under
the fresh string id. -/
def add_task (m : ManagerState) (url : String) : ManagerState :=
  let task : TaskRef := ⟨m.next_id, url⟩
  let tasks1 := dictInsert m.tasks url task
  let task_id := DictKey.str (toString m.next_id)
  { tasks := tasks1
    task_ids := dictInsert m.task_ids task_id task
    next_id := m.next_id + 1 }

/-- One checkpoint file as seen by the recovery scan: the URL it records
and whether `load_progress` succeeds on it. -/
structure CheckpointInfo where
  url : String
  load_ok : Bool

/-- Processing of one progress file by
`DownloadManager.scan_unfinished_tasks` (lines 2445-2498): skip URLs
already registered, register the restored task under the raw integer id
when the checkpoint loads. -/
def scan_step (m : ManagerState) (c : CheckpointInfo) : ManagerState :=
  if (assocLookup m.tasks c.url).isSome then m
  else if c.load_ok then
    let task : TaskRef := ⟨m.next_id, c.url⟩
    let task_id := DictKey.num m.next_id
    { tasks := dictInsert m.tasks c.url task
      task_ids := dictInsert m.task_ids task_id task
      next_id := m.next_id + 1 }
  else m

/-- `DownloadManager.scan_unfinished_tasks` over a list of discovered
progress files. -/
def scan_unfinished_tasks (m : ManagerState) (cs : List CheckpointInfo) :
    ManagerState :=
  cs.foldl scan_step m

theorem initPartsLoop_succ_eq (totalSize chunkSize partsCount i f : Nat) :
    initPartsLoop totalSize chunkSize partsCount i (f + 1) =
      if i * chunkSize < totalSize then
        ⟨i, i * chunkSize,
          (if i = partsCount - 1 then totalSize - 1
           else min (i * chunkSize + chunkSize - 1) (totalSize - 1)),
          i * chunkSize, false⟩ ::
          initPartsLoop totalSize chunkSize partsCount (i + 1) f
      else [] := rfl

theorem initPartsLoop_spec (totalSize chunkSize partsCount : Nat)
    (hT : 0 < totalSize) (hc : 0 < chunkSize) :
    ∀ fuel i, i + fuel = partsCount → 1 ≤ fuel → i * chunkSize < totalSize →
      (initPartsLoop totalSize chunkSize partsCount i fuel ≠ [] ∧
       ((initPartsLoop totalSize chunkSize partsCount i fuel).head?.map SPart.start
          = some (i * chunkSize)) ∧
       List.Chain' partsAdjacent (initPartsLoop totalSize chunkSize partsCount i fuel) ∧
       ((initPartsLoop totalSize chunkSize partsCount i fuel).getLast?.map SPart.end_
          = some (totalSize - 1)) ∧
       (∀ p ∈ initPartsLoop totalSize chunkSize partsCount i fuel, p.start < totalSize)) := by
  intro fuel
  induction fuel with
  | zero => intro i _ hf _; omega
  | succ f ih =>
    intro i hsum _ hstart
    match hf : f with
    | 0 =>
      -- last loop iteration: i = partsCount - 1, the end is forced to totalSize - 1
      have hi : i = partsCount - 1 := by omega
      rw [initPartsLoop_succ_eq, if_pos hstart, if_pos hi]
      have hnil : initPartsLoop totalSize chunkSize partsCount (i + 1) 0 = [] := rfl
      rw [hnil]
      refine ⟨by simp, by simp, List.chain'_singleton _, by simp, ?_⟩
      intro p hp
      simp only [List.mem_singleton] at hp
      subst hp
      exact hstart
    | f' + 1 =>
      have hiNe : i ≠ partsCount - 1 := by omega
      by_cases hnext : (i + 1) * chunkSize < totalSize
      · -- the next iteration produces a segment as well
        obtain ⟨hne, hhd, hchain, hlast, hall⟩ :=
          ih (i + 1) (by omega) (by omega) hnext
        rw [initPartsLoop_succ_eq, if_pos hstart, if_neg hiNe]
        have hmul : (i + 1) * chunkSize = i * chunkSize + chunkSize := by ring
        have hmin : min (i * chunkSize + chunkSize - 1) (totalSize - 1)
            = i * chunkSize + chunkSize - 1 := by omega
        obtain ⟨r, rs, hrest⟩ : ∃ r rs,
            initPartsLoop totalSize chunkSize partsCount (i + 1) (f' + 1) = r :: rs := by
          cases h : initPartsLoop totalSize chunkSize partsCount (i + 1) (f' + 1) with
          | nil => exact absurd h hne
          | cons r rs => exact ⟨r, rs, rfl⟩
        rw [hrest] at hhd hchain hlast hall ⊢
        have hrstart : r.start = (i + 1) * chunkSize := by
          simpa using hhd
        refine ⟨by simp, by simp, ?_, ?_, ?_⟩
        · refine List.chain'_cons.2 ⟨?_, hchain⟩
          simp only [partsAdjacent, hrstart, hmin]
          omega
        · rw [List.getLast?_cons_cons]
          exact hlast
        · intro p hp
          rcases List.mem_cons.1 hp with h | h
          · subst h; exact hstart
          · exact hall p h
      · -- the next iteration breaks out: this segment is the last one and
        -- its end is clamped to totalSize - 1 by the min
        have hrest : initPartsLoop totalSize chunkSize partsCount (i + 1) (f' + 1) = [] := by
          rw [initPartsLoop_succ_eq, if_neg (by omega)]
        rw [initPartsLoop_succ_eq, if_pos hstart, if_neg hiNe, hrest]
        have hmul : (i + 1) * chunkSize = i * chunkSize + chunkSize := by ring
        have hmin : min (i * chunkSize + chunkSize - 1) (totalSize - 1) = totalSize - 1 := by
          omega
        refine ⟨by simp, by simp, List.chain'_singleton _, by simp [hmin], ?_⟩
        intro p hp
        simp only [List.mem_singleton] at hp
        subst hp
        exact hstart

/-- C1: for `total_size > 0`, `worker_count ≥ 1`, `segments_per_worker ≥ 1`,
the Segment Plan built by `_init_parts` partitions `[0, total_size)` with no
overlap and no gap: the plan is non-empty, the first segment starts at 0,
each subsequent segment's start equals the previous segment's
`end_inclusive + 1`, the last segment's `end_inclusive` is
`total_size - 1`, and no segment with `start ≥ total_size` is produced. -/
theorem segment_plan_partitions (totalSize threadCount chunksPerPart : Nat)
    (hT : 0 < totalSize) (htc : 0 < threadCount) (hcpp : 0 < chunksPerPart) :
    initParts totalSize threadCount chunksPerPart ≠ [] ∧
    ((initParts totalSize threadCount chunksPerPart).head?.map SPart.start = some 0) ∧
    List.Chain' partsAdjacent (initParts totalSize threadCount chunksPerPart) ∧
    ((initParts totalSize threadCount chunksPerPart).getLast?.map SPart.end_
       = some (totalSize - 1)) ∧
    (∀ p ∈ initParts totalSize threadCount chunksPerPart, p.start < totalSize) := by
  have hpc : 0 < threadCount * chunksPerPart := Nat.mul_pos htc hcpp
  have hc : 0 < max (1024 * 1024) (totalSize / (threadCount * chunksPerPart)) := by
    have : (0:Nat) < 1024 * 1024 := by norm_num
    omega
  have h := initPartsLoop_spec totalSize
    (max (1024 * 1024) (totalSize / (threadCount * chunksPerPart)))
    (threadCount * chunksPerPart) hT hc (threadCount * chunksPerPart) 0
    (by omega) hpc (by simpa using hT)
  simp only [initParts, if_neg (Nat.pos_iff_ne_zero.mp hT)]
  simpa using h

/-- Witness for `segment_plan_partitions` at a concrete plan
(`total_size = 3 MiB + 5`, 2 workers, 1 segment per worker). -/
theorem segment_plan_partitions_witness :
    initParts 3145733 2 1 ≠ [] ∧
    ((initParts 3145733 2 1).head?.map SPart.start = some 0) ∧
    List.Chain' partsAdjacent (initParts 3145733 2 1) ∧
    ((initParts 3145733 2 1).getLast?.map SPart.end_ = some 3145732) ∧
    (∀ p ∈ initParts 3145733 2 1, p.start < 3145733) :=
  segment_plan_partitions 3145733 2 1 (by norm_num) (by norm_num) (by norm_num)

/-- C2 counterexample: on a 10,485,761-byte resource with
`worker_count = 4` and `segments_per_worker = 10`, `_init_parts` does not
produce 40 segments: the nominal segment size is
`max(1 MiB, 10485761 / 40) = 1 MiB`, so only 11 segments are produced
before the `start >= total_size` cutoff. -/
theorem segment_plan_ten_mib_not_forty :
    ¬ ((initParts 10485761 4 10).length = 40) := by decide

/-- C2 (amended): on a 10,485,761-byte resource with `worker_count = 4`
and `segments_per_worker = 10`, dynamic scaling keeps
`segments_per_worker = 10` and `worker_count = 4`, and the Segment Plan
produces exactly 11 segments — ten of 1,048,576 bytes (the 1 MiB nominal
floor, not `total_size / 40 = 262144`) and a final 1-byte segment
absorbing the remainder. -/
theorem segment_plan_ten_mib_sizes :
    adjust_chunk_size 10485761 10 65536 4 = (10, 32768, 4) ∧
    (initParts 10485761 4 10).length = 11 ∧
    (initParts 10485761 4 10).map (fun p => p.end_ + 1 - p.start) =
      [1048576, 1048576, 1048576, 1048576, 1048576, 1048576, 1048576,
       1048576, 1048576, 1048576, 1] := by decide

/-- C5 counterexample: a range-capable download of exactly 1 MiB
(1,048,576 bytes) does not select single-stream mode; the guard in
`prepare` is `total_size < 1024 * 1024`, which is false at exactly 1 MiB. -/
theorem prepare_mode_one_mib_counterexample :
    ¬ (prepareMode true 1048576 = DownloadMode.singleStream) := by decide

/-- C5 (amended): during preparation of a range-capable download, a
`total_size` of exactly 1 MiB already selects multi-stream (segmented)
mode, as does 1 MiB + 1; only sizes strictly below 1 MiB select
single-stream mode. -/
theorem prepare_mode_boundary :
    prepareMode true 1048575 = DownloadMode.singleStream ∧
    prepareMode true 1048576 = DownloadMode.multiStream ∧
    prepareMode true 1048577 = DownloadMode.multiStream := by decide

/-- C6 counterexample: for a 50 MiB file, `_adjust_chunk_size` does not
leave `chunks_per_part` at the caller-supplied value 100 (the
`DownloadTask` constructor default); it overwrites it with 10. -/
theorem adjust_chunk_size_counterexample :
    ¬ ((adjust_chunk_size 52428800 100 65536 10).1 = 100) := by decide

/-- C6 (amended): for every task with `total_size > 0`, dynamic scaling
sets `segments_per_worker` to 800 when `total_size` > 10 GiB, 500 when
> 5 GiB, 300 when > 1 GiB, 200 when > 500 MiB, 150 when > 100 MiB, and
otherwise hard-codes it to 10 regardless of the caller-supplied value. -/
theorem dynamic_scaling_segments_per_worker
    (totalSize cpp cs tc : Nat) (h : 0 < totalSize) :
    (10737418240 < totalSize →
        (adjust_chunk_size totalSize cpp cs tc).1 = 800) ∧
    (5368709120 < totalSize → totalSize ≤ 10737418240 →
        (adjust_chunk_size totalSize cpp cs tc).1 = 500) ∧
    (1073741824 < totalSize → totalSize ≤ 5368709120 →
        (adjust_chunk_size totalSize cpp cs tc).1 = 300) ∧
    (524288000 < totalSize → totalSize ≤ 1073741824 →
        (adjust_chunk_size totalSize cpp cs tc).1 = 200) ∧
    (104857600 < totalSize → totalSize ≤ 524288000 →
        (adjust_chunk_size totalSize cpp cs tc).1 = 150) ∧
    (totalSize ≤ 104857600 →
        (adjust_chunk_size totalSize cpp cs tc).1 = 10) := by
  simp only [adjust_chunk_size, if_pos h]
  refine ⟨fun h1 => ?_, fun h1 h2 => ?_, fun h1 h2 => ?_, fun h1 h2 => ?_,
    fun h1 h2 => ?_, fun h1 => ?_⟩ <;>
    · split_ifs <;> omega

/-- Witness for `dynamic_scaling_segments_per_worker`: a 50 MiB file with
caller-supplied `segments_per_worker = 100` ends up with 10. -/
theorem dynamic_scaling_segments_per_worker_witness :
    (0:Nat) < 52428800 ∧ (adjust_chunk_size 52428800 100 65536 10).1 = 10 :=
  ⟨by norm_num,
   (dynamic_scaling_segments_per_worker 52428800 100 65536 10
      (by norm_num)).2.2.2.2.2 (by norm_num)⟩

/-- C9: `get_progress` is total and never divides by zero — the
percentage is guarded by the `total_size == 0` check, in which case it is
reported as `0` regardless of `downloaded_size`. -/
theorem get_progress_never_divides_by_zero (totalSize downloadedSize : ℤ) :
    (get_progress_percentage totalSize downloadedSize).isSome = true ∧
    (totalSize = 0 → get_progress_percentage totalSize downloadedSize = some 0) := by
  constructor
  · by_cases h : totalSize = 0
    · simp [get_progress_percentage, h]
    · have hq : (totalSize : ℚ) ≠ 0 := Int.cast_ne_zero.mpr h
      simp [get_progress_percentage, pythonTrueDiv, h, hq]
  · intro h
    simp [get_progress_percentage, h]

/-- Witness for `get_progress_never_divides_by_zero` at
`total_size = 0`, `downloaded_size = 7`. -/
theorem get_progress_never_divides_by_zero_witness :
    (get_progress_percentage 0 7).isSome = true ∧
    get_progress_percentage 0 7 = some 0 :=
  ⟨(get_progress_never_divides_by_zero 0 7).1,
   (get_progress_never_divides_by_zero 0 7).2 rfl⟩

/-- C3: once any worker reports HTTP 416, the task is in single-stream
mode for the rest of its lifetime: after any positive number of
mutex-serialised 416 observations starting from an unlatched state,
the latch flag is set, the segment list is empty, `downloaded_size` is
reset to 0, `thread_count` is 1, `temp_path` has been truncated, and
exactly one single-stream fetcher was spawned; every observation after
the first leaves the state exactly as after the first (all later
observers are no-ops), and an observation never reverts a set flag. -/
theorem single_stream_latch (s : LatchState) (n : Nat)
    (hs : s.switched_to_single_thread = false)
    (hsp : s.single_fetchers_spawned = 0) (hn : 1 ≤ n) :
    (observe416_iter n s).switched_to_single_thread = true ∧
    (observe416_iter n s).parts = [] ∧
    (observe416_iter n s).downloaded_size = 0 ∧
    (observe416_iter n s).thread_count = 1 ∧
    (observe416_iter n s).temp_truncated = true ∧
    (observe416_iter n s).single_fetchers_spawned = 1 ∧
    (∀ m, 1 ≤ m → observe416_iter m s = observe416_iter 1 s) ∧
    (∀ t : LatchState, t.switched_to_single_thread = true → observe416 t = t) := by
  have hfix : ∀ t : LatchState, t.switched_to_single_thread = true →
      observe416 t = t := by
    intro t ht
    simp [observe416, ht]
  have hiterfix : ∀ k t, observe416 t = t → observe416_iter k t = t := by
    intro k
    induction k with
    | zero => intro t _; rfl
    | succ k ih =>
      intro t ht
      show observe416_iter k (observe416 t) = t
      rw [ht, ih t ht]
  have hs1 : observe416 s =
      { switched_to_single_thread := true, thread_count := 1, parts := [],
        downloaded_size := 0, temp_truncated := true,
        single_fetchers_spawned := 1 } := by
    simp [observe416, hs, hsp]
  have hone : ∀ m, 1 ≤ m → observe416_iter m s = observe416 s := by
    intro m hm
    obtain ⟨k, rfl⟩ : ∃ k, m = k + 1 := ⟨m - 1, by omega⟩
    show observe416_iter k (observe416 s) = observe416 s
    exact hiterfix k _ (hfix _ (by rw [hs1]))
  have hn' := hone n hn
  rw [hn', hs1]
  refine ⟨rfl, rfl, rfl, rfl, rfl, rfl, ?_, hfix⟩
  intro m hm
  rw [hone m hm, hone 1 le_rfl]

/-- Witness for `single_stream_latch`: three successive 416 observations
on a live four-worker task with one pending segment and 5 downloaded
bytes. -/
theorem single_stream_latch_witness :
    (observe416_iter 3 ⟨false, 4, [⟨0, 0, 9, 3, false⟩], 5, false, 0⟩).switched_to_single_thread
        = true ∧
    (observe416_iter 3 ⟨false, 4, [⟨0, 0, 9, 3, false⟩], 5, false, 0⟩).parts = [] ∧
    (observe416_iter 3 ⟨false, 4, [⟨0, 0, 9, 3, false⟩], 5, false, 0⟩).downloaded_size = 0 ∧
    (observe416_iter 3 ⟨false, 4, [⟨0, 0, 9, 3, false⟩], 5, false, 0⟩).thread_count = 1 ∧
    (observe416_iter 3 ⟨false, 4, [⟨0, 0, 9, 3, false⟩], 5, false, 0⟩).temp_truncated = true ∧
    (observe416_iter 3 ⟨false, 4, [⟨0, 0, 9, 3, false⟩], 5, false, 0⟩).single_fetchers_spawned = 1 ∧
    (∀ m, 1 ≤ m →
      observe416_iter m ⟨false, 4, [⟨0, 0, 9, 3, false⟩], 5, false, 0⟩ =
      observe416_iter 1 ⟨false, 4, [⟨0, 0, 9, 3, false⟩], 5, false, 0⟩) ∧
    (∀ t : LatchState, t.switched_to_single_thread = true → observe416 t = t) :=
  single_stream_latch ⟨false, 4, [⟨0, 0, 9, 3, false⟩], 5, false, 0⟩ 3 rfl rfl
    (by norm_num)

theorem foldl_downloaded_sum (ps : List SPart) (a : Nat) :
    ps.foldl
      (fun acc p => if p.start < p.current then acc + (p.current - p.start) else acc) a
      = a + (ps.map (fun p => p.current - p.start)).sum := by
  induction ps generalizing a with
  | nil => simp
  | cons p ps ih =>
    simp only [List.foldl_cons, List.map_cons, List.sum_cons, ih]
    by_cases h : p.start < p.current
    · rw [if_pos h]
      omega
    · rw [if_neg h]
      have h0 : p.current - p.start = 0 := by omega
      omega

theorem sanitize_status_downloaded (t : TaskState) :
    (sanitize_status t).downloaded_size = t.downloaded_size := by
  unfold sanitize_status
  dsimp only
  split_ifs <;> rfl

theorem load_finish_fst_downloaded (t : TaskState) (d : ProgressData) (fs : FSOracle) :
    (load_finish t d fs).1.downloaded_size = t.downloaded_size := by
  unfold load_finish
  by_cases h1 : t.status = "completed"
  · rw [if_pos h1]
  · rw [if_neg h1]
    dsimp only
    cases hp : d.parts with
    | none => exact sanitize_status_downloaded t
    | some ps =>
      by_cases he : ps.isEmpty
      · simp only [he, if_true]
        exact sanitize_status_downloaded t
      · simp only [he, if_false]
        split_ifs <;> exact sanitize_status_downloaded t

/-- C10: `load_progress` returns `False` without applying any checkpoint
data whenever the checkpoint lacks one of the required fields `url`,
`total_size`, `downloaded_size`, `status`, or when its `url` differs from
the task's URL. -/
theorem load_progress_rejects_invalid (t : TaskState) (d : ProgressData) (fs : FSOracle)
    (h : d.url = none ∨ d.total_size = none ∨ d.downloaded_size = none ∨
         d.status = none ∨ (∃ u, d.url = some u ∧ u ≠ t.url)) :
    load_progress t (some d) fs = (t, false) := by
  obtain ⟨uO, tsO, dsO, paO, stO, sdO, fnO, pxO, tcO, swO, taO⟩ := d
  unfold load_progress
  by_cases hp : fs.path_exists t.progress_filepath = false
  · rw [if_pos hp]
  · rw [if_neg hp]
    dsimp only at h ⊢
    rcases h with h | h | h | h | ⟨u, hu, hne⟩
    · subst h
      cases tsO <;> cases dsO <;> cases stO <;> rfl
    · subst h
      cases uO <;> cases dsO <;> cases stO <;> rfl
    · subst h
      cases uO <;> cases tsO <;> cases stO <;> rfl
    · subst h
      cases uO <;> cases tsO <;> cases dsO <;> rfl
    · subst hu
      cases tsO <;> cases dsO <;> cases stO <;>
        first
          | rfl
          | (dsimp only; rw [if_pos hne])

/-- Witness for `load_progress_rejects_invalid`: a checkpoint with every
key missing is rejected and the task is untouched. -/
theorem load_progress_rejects_invalid_witness :
    load_progress
      ⟨"u", "d", "f", "d/f", "d/f.downloading", "d/f.progress", 100, 0,
        "downloading", [], [], 4, false, 0⟩
      (some ⟨none, none, none, none, none, none, none, none, none, none, none⟩)
      ⟨fun _ => true, fun _ => 0, true⟩ =
    (⟨"u", "d", "f", "d/f", "d/f.downloading", "d/f.progress", 100, 0,
        "downloading", [], [], 4, false, 0⟩, false) :=
  load_progress_rejects_invalid _ _ _ (Or.inl rfl)

/-- Unfolding lemma: on a checkpoint produced by `save_progress` for the
same task, `load_progress` passes the required-field and URL checks and
reaches `load_apply`/`load_finish`. -/
theorem load_progress_roundtrip_unfold (t : TaskState) (fs : FSOracle)
    (hfs : fs.path_exists t.progress_filepath = true) :
    load_progress t (some (save_progress t)) fs =
      load_finish
        (load_apply t t.url t.total_size t.downloaded_size t.status
          (save_progress t) fs)
        (save_progress t) fs := by
  have hne : ¬ (fs.path_exists t.progress_filepath = false) := by simp [hfs]
  conv_lhs => rw [load_progress]
  rw [if_neg hne]
  show (if t.url ≠ t.url then (t, false) else _) = _
  rw [if_neg (by simp)]

theorem load_apply_roundtrip_downloaded (t : TaskState) (fs : FSOracle)
    (hp : t.parts ≠ []) :
    (load_apply t t.url t.total_size t.downloaded_size t.status
        (save_progress t) fs).downloaded_size =
      min ((t.parts.map (fun p => p.current - p.start)).sum) t.total_size := by
  have hemp : t.parts.isEmpty = false := by
    cases h : t.parts with
    | nil => exact absurd h hp
    | cons a l => rfl
  unfold load_apply save_progress
  dsimp only
  simp only [foldl_downloaded_sum, Nat.zero_add]
  simp only [hemp, Bool.false_eq_true, if_false]
  simp only [ne_eq, not_true_eq_false, if_false, ite_false]
  rw [Nat.min_def]
  split_ifs <;> omega

/-- C4: checkpoint round-trip.  For every multi-stream task state with a
non-empty segment list, saving with `save_progress` and reloading with
`load_progress` yields a task whose `downloaded_size` is exactly the sum
over all saved segments of `current - start`, clamped to `total_size` —
the reloaded segment list reproduces `downloaded_size` to the byte. -/
theorem checkpoint_round_trip (t : TaskState) (fs : FSOracle)
    (hfs : fs.path_exists t.progress_filepath = true)
    (hp : t.parts ≠ []) :
    (load_progress t (some (save_progress t)) fs).1.downloaded_size =
      min ((t.parts.map (fun p => p.current - p.start)).sum) t.total_size := by
  rw [load_progress_roundtrip_unfold t fs hfs, load_finish_fst_downloaded,
    load_apply_roundtrip_downloaded t fs hp]

/-- Witness for `checkpoint_round_trip`: a 100-byte two-segment task with
30 + 20 bytes downloaded round-trips to `downloaded_size = 50`. -/
theorem checkpoint_round_trip_witness :
    ((⟨fun _ => true, fun _ => 100, true⟩ : FSOracle).path_exists
        (⟨"u", "d", "f", "d/f", "d/f.downloading", "d/f.progress", 100, 50,
          "downloading", [⟨0, 0, 49, 30, false⟩, ⟨1, 50, 99, 70, false⟩], [],
          4, false, 0⟩ : TaskState).progress_filepath = true) ∧
    (load_progress
        (⟨"u", "d", "f", "d/f", "d/f.downloading", "d/f.progress", 100, 50,
          "downloading", [⟨0, 0, 49, 30, false⟩, ⟨1, 50, 99, 70, false⟩], [],
          4, false, 0⟩ : TaskState)
        (some (save_progress
          (⟨"u", "d", "f", "d/f", "d/f.downloading", "d/f.progress", 100, 50,
            "downloading", [⟨0, 0, 49, 30, false⟩, ⟨1, 50, 99, 70, false⟩], [],
            4, false, 0⟩ : TaskState)))
        ⟨fun _ => true, fun _ => 100, true⟩).1.downloaded_size = 50 := by
  refine ⟨rfl, ?_⟩
  have h := checkpoint_round_trip
    (⟨"u", "d", "f", "d/f", "d/f.downloading", "d/f.progress", 100, 50,
      "downloading", [⟨0, 0, 49, 30, false⟩, ⟨1, 50, 99, 70, false⟩], [],
      4, false, 0⟩ : TaskState)
    ⟨fun _ => true, fun _ => 100, true⟩ rfl (by simp)
  simpa using h

/-- C7 counterexample: for the URL `http://example.com/my-file?filename=data.bin`
the path's last component `my-file` has no dot (step 3 fails), yet the
resolver does not consult the `filename` query key: `my-file` is at most
30 characters and not alphanumeric (it contains `-`), so the query-key
step is skipped and the basename is returned instead of `data.bin`. -/
theorem filename_query_keys_counterexample :
    try_extract_filename_from_url
        ⟨ ( "example.com" ).data, ( "/my-file" ).data,
          [( "filename" , "data.bin" )] ⟩ ≠
      ( "data.bin" ).data := by decide

/-- C7 (amended): for every non-HuggingFace request URL whose path last
component does not qualify under step 3, the resolver consults the query
keys `filename`, `name`, `file`, `title`, `download` (returning the first
whose value contains a dot, else the basename) only when the basename is
longer than 30 characters or purely alphanumeric; otherwise it returns
the path's last component directly, without consulting the query. -/
theorem filename_query_keys_guarded (u : ParsedUrl)
    (hhf : containsSub hfcoHost u.netloc = false)
    (h3 : ¬((basenameList (percentDecode u.path)).contains '.' = true ∧
            (basenameList (percentDecode u.path)).length < 100)) :
    ((basenameList (percentDecode u.path)).length > 30 ∨
        pyIsAlnum (basenameList (percentDecode u.path)) = true →
      try_extract_filename_from_url u =
        ((firstQueryMatch u.query).map String.data).getD
          (basenameList (percentDecode u.path))) ∧
    ((basenameList (percentDecode u.path)).length ≤ 30 →
      pyIsAlnum (basenameList (percentDecode u.path)) = false →
      try_extract_filename_from_url u =
        basenameList (percentDecode u.path)) := by
  constructor
  · intro hg
    unfold try_extract_filename_from_url
    dsimp only
    rw [if_neg (by simp [hhf])]
    rw [if_neg h3, if_pos hg]
    cases hq : firstQueryMatch u.query with
    | none => simp [hq]
    | some fn => simp [hq]
  · intro h30 halnum
    unfold try_extract_filename_from_url
    dsimp only
    rw [if_neg (by simp [hhf])]
    rw [if_neg h3, if_neg ?hguard]
    case hguard =>
      rintro (h | h)
      · omega
      · rw [halnum] at h
        exact Bool.false_ne_true h

/-- Witness for `filename_query_keys_guarded`: for
`http://example.com/abcdef?name=x.y` the basename `abcdef` is
alphanumeric and dotless, so the resolver returns the query value
`x.y`. -/
theorem filename_query_keys_guarded_witness :
    containsSub hfcoHost ( ( "example.com" ).data ) = false ∧
    try_extract_filename_from_url
        ⟨ ( "example.com" ).data, ( "/abcdef" ).data, [( "name" , "x.y" )] ⟩ =
      ( "x.y" ).data := by
  refine ⟨by decide, ?_⟩
  have h := (filename_query_keys_guarded
      ⟨ ( "example.com" ).data, ( "/abcdef" ).data, [( "name" , "x.y" )] ⟩
      (by decide) (by decide)).1 (Or.inr (by decide))
  rw [h]
  decide

theorem assocLookup_map_insert {κ α : Type} [DecidableEq κ]
    (l : List (κ × α)) (k : κ) (v : α)
    (h : (assocLookup l k).isSome = true) :
    assocLookup (l.map (fun kv => if kv.1 = k then (k, v) else kv)) k = some v := by
  induction l with
  | nil => simp [assocLookup] at h
  | cons kv rest ih =>
    by_cases hk : kv.1 = k
    · simp [assocLookup, hk]
    · have h' : (assocLookup rest k).isSome = true := by
        simpa [assocLookup, hk] using h
      simp [assocLookup, hk, ih h']

theorem assocLookup_append_new {κ α : Type} [DecidableEq κ]
    (l : List (κ × α)) (k : κ) (v : α)
    (h : (assocLookup l k).isSome = false) :
    assocLookup (l ++ [(k, v)]) k = some v := by
  induction l with
  | nil => simp [assocLookup]
  | cons kv rest ih =>
    by_cases hk : kv.1 = k
    · simp [assocLookup, hk] at h
    · have h' : (assocLookup rest k).isSome = false := by
        simpa [assocLookup, hk] using h
      simp [assocLookup, hk, ih h']

theorem assocLookup_dictInsert {κ α : Type} [DecidableEq κ]
    (l : List (κ × α)) (k : κ) (v : α) :
    assocLookup (dictInsert l k v) k = some v := by
  unfold dictInsert
  by_cases h : (assocLookup l k).isSome = true
  · rw [if_pos h]
    exact assocLookup_map_insert l k v h
  · rw [if_neg h]
    exact assocLookup_append_new l k v (by simpa using h)

/-- C8 counterexample: two `add_task` calls with the same URL are not
prevented — after them the by-id index holds two distinct tasks (tokens
1 and 2) for the one URL, so a URL does not map to at most one task
across the indices. -/
theorem manager_url_dedup_counterexample :
    ¬ (∀ t1 ∈ (add_task (add_task ⟨ [], [], 1 ⟩ ( "u" )) ( "u" )).task_ids.map Prod.snd,
       ∀ t2 ∈ (add_task (add_task ⟨ [], [], 1 ⟩ ( "u" )) ( "u" )).task_ids.map Prod.snd,
         t1.url = t2.url → t1 = t2) := by decide

/-- C8 (amended): only the recovery scan deduplicates by URL:
`scan_unfinished_tasks` skips any checkpoint whose URL is already in the
by-URL registry, while `add_task` performs no duplicate check — it
overwrites the by-URL entry with the freshly created task and always
files that task under a fresh id, so repeated `add_task` calls with one
URL leave multiple distinct tasks for it in the by-id index. -/
theorem manager_registry_dedup (m : ManagerState) (url : String)
    (c : CheckpointInfo)
    (hc : (assocLookup m.tasks c.url).isSome = true) :
    assocLookup (add_task m url).tasks url = some ⟨m.next_id, url⟩ ∧
    scan_step m c = m := by
  constructor
  · unfold add_task
    exact assocLookup_dictInsert m.tasks url ⟨m.next_id, url⟩
  · unfold scan_step
    rw [if_pos hc]

/-- Witness for `manager_registry_dedup`: a registry already holding
URL `u` skips a rescanned checkpoint for `u`, and `add_task` on `v`
registers the fresh task with token 2. -/
theorem manager_registry_dedup_witness :
    (assocLookup (⟨ [( "u" , ⟨1, "u"⟩ )], [], 2 ⟩ : ManagerState).tasks
        ( "u" )).isSome = true ∧
    assocLookup (add_task (⟨ [( "u" , ⟨1, "u"⟩ )], [], 2 ⟩ : ManagerState)
        ( "v" )).tasks ( "v" ) = some ⟨2, "v"⟩ ∧
    scan_step (⟨ [( "u" , ⟨1, "u"⟩ )], [], 2 ⟩ : ManagerState) ⟨ "u" , true ⟩ =
      ⟨ [( "u" , ⟨1, "u"⟩ )], [], 2 ⟩ := by
  refine ⟨by decide, ?_, ?_⟩
  · exact (manager_registry_dedup
      (⟨ [( "u" , ⟨1, "u"⟩ )], [], 2 ⟩ : ManagerState) ( "v" )
      ⟨ "u" , true ⟩ (by decide)).1
  · exact (manager_registry_dedup
      (⟨ [( "u" , ⟨1, "u"⟩ )], [], 2 ⟩ : ManagerState) ( "v" )
      ⟨ "u" , true ⟩ (by decide)).2

end MultiSocksDownloader
